import Mathlib

/-!
# Verification of the mcfarlin-dashboard approval/sync workers

Shallow embedding of the two Cloudflare Pages functions of the repository:

* `src/functions/api/approve.js` — the Approval Ledger: `onRequestPost`
  records an approve/reject decision, removes the item from the pending
  queue and prepends the decision to a bounded history.
* `src/unnamed/part_000` (the `/api/sync` worker) — the Status Relay:
  `onRequestPost` stores the pushed snapshot, records the last-sync time
  and seeds the pending queue once; `onRequestGet` returns the stored
  snapshot verbatim.

The KV namespaces are modelled as typed record states (`ApprovalsKV`,
`DashboardData`), wrapped in `Option` to express the "binding not
configured" case, exactly mirroring the `if (env.APPROVALS)` /
`if (env.DASHBOARD_DATA)` guards in the source.  JavaScript string
falsiness (`!id`, `note || ""`, `if (pendingRaw)`) is modelled by
`strFalsy` on `Option String` (absent or empty string).
-/

/-- A pending item: the code only inspects `id`; every other field is
carried through unexamined, modelled by an opaque `payload` string. -/
structure PendingItem where
  id : String
  payload : String
deriving Repr, DecidableEq

/-- A decision record, as built in `approve.js`:
`{ id, action, note: note || "", by: email, at: new Date().toISOString() }`.
The JavaScript field names `by` and `at` are Lean keywords, hence `by_`
and `at_`. -/
structure Decision where
  id : String
  action : String
  note : String
  by_ : String
  at_ : String
deriving Repr, DecidableEq

/-- The APPROVALS KV namespace: per-id decision records under keys
`decision:<id>`, plus the `pending` and `history` keys.  `none` models a
key that has never been written (KV `get` returning `null`). -/
structure ApprovalsKV where
  decisions : String → Option Decision
  pending : Option (List PendingItem)
  history : Option (List Decision)

/-- The DASHBOARD_DATA KV namespace: the `status` key holds the stored
snapshot serialization verbatim; `last_sync` holds an ISO timestamp. -/
structure DashboardData where
  status : Option String
  last_sync : Option String
deriving Repr, DecidableEq

/-- The worker environment: each KV binding is `none` when not
configured; `SYNC_SECRET` is `none` when unset (falsy). -/
structure Env where
  APPROVALS : Option ApprovalsKV
  DASHBOARD_DATA : Option DashboardData
  SYNC_SECRET : Option String

/-- JavaScript falsiness for an optional string: absent (`undefined` /
`null`) or the empty string. -/
def strFalsy : Option String → Bool
  | none => true
  | some s => s == ""

/-- The parsed JSON body of a POST to `/api/approve`:
`const { id, action, note } = body`, each field possibly absent. -/
structure ApproveBody where
  id : Option String
  action : Option String
  note : Option String
deriving Repr, DecidableEq

/-- The observable outcome of `approve.js`'s `onRequestPost`, tagged by
the distinct error responses of the source. -/
inductive ApproveResult where
  | unauthorized
  | forbidden
  | invalidJSON
  | missingField
  | invalidAction
  | ok (d : Decision)
deriving Repr, DecidableEq

/-- JavaScript `String.prototype.toLowerCase`, modelled character-wise
(the approver emails are ASCII). -/
def jsToLower (s : String) : String := String.mk (s.data.map Char.toLower)

/-- The fixed allow-list of authorized approvers (`ALLOWED_APPROVERS` in
`approve.js`). -/
def ALLOWED_APPROVERS : List String :=
  ["rinvest4@gmail.com", "amandalastudios@gmail.com"]

/-- The storage effect of a valid decision post on the APPROVALS
namespace (lines 58–77 of `approve.js`): put `decision:<id>`; if the
`pending` key exists, write back the sequence filtered by id; prepend
the decision to `history` (absent key read as `[]`) and write back the
first 100 entries. -/
def applyDecision (kv : ApprovalsKV) (d : Decision) : ApprovalsKV :=
  let kv1 : ApprovalsKV :=
    { kv with decisions := fun k =>
        if k = "decision:" ++ d.id then some d else kv.decisions k }
  let kv2 : ApprovalsKV :=
    match kv1.pending with
    | none => kv1
    | some pending =>
      { kv1 with
        pending := some (pending.filter (fun item => item.id ≠ d.id)) }
  { kv2 with history := some ((d :: kv2.history.getD []).take 100) }

/-- Shallow embedding of `onRequestPost` in `src/functions/api/approve.js`.
`email` is the result of `getAuthenticatedEmail` (out-of-scope identity
extraction); `body` is `none` when `request.json()` throws; `now` is
`new Date().toISOString()`.  Returns the response outcome and the
post-state of the environment. -/
def onRequestPostApprove (env : Env) (email : Option String)
    (body : Option ApproveBody) (now : String) : ApproveResult × Env :=
  match email with
  | none => (.unauthorized, env)
  | some email =>
    if ¬ (ALLOWED_APPROVERS.contains (jsToLower email)) then
      (.forbidden, env)
    else
      match body with
      | none => (.invalidJSON, env)
      | some body =>
        if strFalsy body.id || strFalsy body.action then
          (.missingField, env)
        else
          let id := body.id.getD ""
          let action := body.action.getD ""
          if ¬ (["approve", "reject"].contains action) then
            (.invalidAction, env)
          else
            let decision : Decision :=
              { id := id, action := action,
                note := if strFalsy body.note then "" else body.note.getD "",
                by_ := email, at_ := now }
            match env.APPROVALS with
            | none => (.ok decision, env)
            | some kv =>
              (.ok decision, { env with APPROVALS := some (applyDecision kv decision) })

/-- The optional `summary` object of a pushed snapshot; the code only
reads `summary.active_agents`. -/
structure Summary where
  active_agents : Option Nat
deriving Repr, DecidableEq

/-- A parsed snapshot document (`statusData`): the code interprets only
`pending_approvals` and `summary`; the rest is opaque, modelled by
`rest`. -/
structure Snapshot where
  pending_approvals : Option (List PendingItem)
  summary : Option Summary
  rest : String
deriving Repr, DecidableEq

/-- A concrete stand-in for `JSON.stringify(statusData)`: what matters
for the verbatim-read property is only that the stored string is
returned unchanged.  It always starts with a brace, hence is never
empty. -/
def serializeSnapshot (s : Snapshot) : String :=
  "\x7b" ++ (match s.pending_approvals with
    | none => ""
    | some l => String.join (l.map (fun item => item.id ++ "," ++ item.payload)))
  ++ (match s.summary with
    | none => ""
    | some su => match su.active_agents with
      | none => ";"
      | some n => ";" ++ toString n)
  ++ s.rest ++ "\x7d"

/-- The `agents` field of the sync response:
`statusData.summary ? statusData.summary.active_agents + " active" : "unknown"`.
When `summary` is present but `active_agents` absent, JavaScript renders
`undefined + " active"` as `"undefined active"`. -/
def agentsString (s : Snapshot) : String :=
  match s.summary with
  | none => "unknown"
  | some su =>
    (match su.active_agents with
     | none => "undefined"
     | some n => toString n) ++ " active"

/-- The observable outcome of the sync worker's `onRequestPost`. -/
inductive SyncPostResult where
  | unauthorized
  | invalidJSON
  | ok (received_at : String) (agents : String)
deriving Repr, DecidableEq

/-- Shallow embedding of `onRequestPost` in `src/unnamed/part_000`
(the `/api/sync` worker).  `token` is the bearer token extracted from
the Authorization header (`none` when the header is missing, which the
code turns into `""`); `body` is `none` when `request.json()` throws. -/
def onRequestPostSync (env : Env) (token : Option String)
    (body : Option Snapshot) (now : String) : SyncPostResult × Env :=
  let tok := token.getD ""
  match env.SYNC_SECRET with
  | none => (.unauthorized, env)
  | some secret =>
    if tok ≠ secret then (.unauthorized, env)
    else
      match body with
      | none => (.invalidJSON, env)
      | some statusData =>
        let env1 : Env :=
          match env.DASHBOARD_DATA with
          | none => env
          | some _ =>
            { env with
              DASHBOARD_DATA := some { status := some (serializeSnapshot statusData),
                                       last_sync := some now } }
        let env2 : Env :=
          match env1.APPROVALS with
          | none => env1
          | some kv =>
            match kv.pending with
            | some _ => env1
            | none =>
              { env1 with
                APPROVALS := some { kv with
                  pending := some (statusData.pending_approvals.getD []) } }
        (.ok now (agentsString statusData), env2)

/-- The observable outcome of the sync worker's `onRequestGet`: either
the raw stored string, passed through unchanged, or the 404 "no status
data" response. -/
inductive SyncGetResult where
  | raw (data : String)
  | notFound
deriving Repr, DecidableEq

/-- Shallow embedding of `onRequestGet` in `src/unnamed/part_000`: if
DASHBOARD_DATA is bound and holds a truthy `status` value, return it
verbatim; otherwise fall through to the 404 response. -/
def onRequestGetSync (env : Env) : SyncGetResult :=
  match env.DASHBOARD_DATA with
  | none => .notFound
  | some dd =>
    match dd.status with
    | none => .notFound
    | some data => if data == "" then .notFound else .raw data

/-- The `pending` value of the APPROVALS binding of an environment,
`none` when the binding is unconfigured or the key never written. -/
def approvalsPending (env : Env) : Option (List PendingItem) :=
  env.APPROVALS.bind (·.pending)

/-- The `history` value of the APPROVALS binding of an environment. -/
def approvalsHistory (env : Env) : Option (List Decision) :=
  env.APPROVALS.bind (·.history)

/-- The stored `decision:<id>` record for a given id. -/
def approvalsDecision (env : Env) (id : String) : Option Decision :=
  env.APPROVALS.bind (fun kv => kv.decisions ("decision:" ++ id))

/-- The stored `status` value of the DASHBOARD_DATA binding. -/
def dashboardStatus (env : Env) : Option String :=
  env.DASHBOARD_DATA.bind (·.status)

/-- The inputs of one POST to `/api/approve`: authenticated email (if
any), parsed body (if any) and the request timestamp. -/
structure Call where
  email : Option String
  body : Option ApproveBody
  now : String

/-- The decision a call would record, or `none` when the call fails
validation — the specification-side characterization of the guards of
`onRequestPostApprove`. -/
def callDecision (email : Option String) (body : Option ApproveBody)
    (now : String) : Option Decision :=
  match email with
  | none => none
  | some email =>
    if ¬ (ALLOWED_APPROVERS.contains (jsToLower email)) then none
    else
      match body with
      | none => none
      | some body =>
        if strFalsy body.id || strFalsy body.action then none
        else if ¬ (["approve", "reject"].contains (body.action.getD "")) then none
        else some
          { id := body.id.getD "", action := body.action.getD "",
            note := if strFalsy body.note then "" else body.note.getD "",
            by_ := email, at_ := now }

/-- The decision recorded by a `Call`, if it passes validation. -/
def Call.decision (c : Call) : Option Decision :=
  callDecision c.email c.body c.now

/-- One state transition of the environment by a POST to `/api/approve`. -/
def approveStep (env : Env) (c : Call) : Env :=
  (onRequestPostApprove env c.email c.body c.now).2

/-- The environment after a sequence of POSTs to `/api/approve`. -/
def runApprovals (env : Env) (calls : List Call) : Env :=
  calls.foldl approveStep env

/-- Concrete fixture: APPROVALS state with pending `[A, B]` and empty
history. -/
def kvAB : ApprovalsKV :=
  ⟨fun _ => none, some [⟨"A", "pa"⟩, ⟨"B", "pb"⟩], some []⟩

/-- Concrete fixture: environment whose APPROVALS binding is `kvAB`. -/
def envAB : Env := ⟨some kvAB, none, none⟩

/-- Concrete fixture: APPROVALS state with no pending key and empty
history. -/
def kvEmpty : ApprovalsKV := ⟨fun _ => none, none, some []⟩

/-- Concrete fixture: environment whose APPROVALS binding is `kvEmpty`. -/
def envEmpty : Env := ⟨some kvEmpty, none, none⟩

/-- Concrete fixture: 101 valid decision posts with distinct ids. -/
def calls101 : List Call :=
  (List.range 101).map fun n =>
    ⟨some "rinvest4@gmail.com",
     some ⟨some ("i" ++ toString n), some "approve", none⟩, "T"⟩

/-- Concrete fixture: sync environment with APPROVALS configured but no
DASHBOARD_DATA binding. -/
def envSyncA : Env := ⟨some kvEmpty, none, some "sec"⟩

/-- Concrete fixture: sync environment with DASHBOARD_DATA configured
(no stored status yet) but no APPROVALS binding. -/
def envSyncD : Env := ⟨none, some ⟨none, none⟩, some "sec"⟩

/-- Concrete fixture: a snapshot with two pending items and an agent
count. -/
def snapAB : Snapshot := ⟨some [⟨"A", "pa"⟩, ⟨"B", "pb"⟩], some ⟨some 3⟩, "r"⟩

/-- Concrete fixture: a snapshot whose `summary` is present but carries
no `active_agents` field. -/
def snapNoAgents : Snapshot := ⟨none, some ⟨none⟩, ""⟩

/-- Concrete fixture: environment with no bindings at all. -/
def envNone : Env := ⟨none, none, none⟩

/-- Concrete fixture: environment with only the sync secret set. -/
def envOnlySec : Env := ⟨none, none, some "sec"⟩

lemma approvePost_of_invalid (env : Env) (email : Option String)
    (body : Option ApproveBody) (now : String)
    (h : callDecision email body now = none) :
    (onRequestPostApprove env email body now).2 = env := by
  cases email with
  | none => rfl
  | some e =>
    by_cases hA : jsToLower e ∈ ALLOWED_APPROVERS
    · cases body with
      | none => simp [onRequestPostApprove, hA]
      | some b =>
        by_cases hM : strFalsy b.id = true ∨ strFalsy b.action = true
        · simp [onRequestPostApprove, hA, hM]
        · by_cases hAct : b.action.getD "" = "approve" ∨ b.action.getD "" = "reject"
          · simp [callDecision, hA, hM, hAct] at h
          · simp [onRequestPostApprove, hA, hM, hAct]
    · simp [onRequestPostApprove, hA]

lemma approvePost_of_valid (env : Env) (email : Option String)
    (body : Option ApproveBody) (now : String) (d : Decision)
    (h : callDecision email body now = some d) :
    (onRequestPostApprove env email body now).1 = .ok d
    ∧ (env.APPROVALS = none → (onRequestPostApprove env email body now).2 = env)
    ∧ (∀ kv, env.APPROVALS = some kv →
        (onRequestPostApprove env email body now).2
          = { env with APPROVALS := some (applyDecision kv d) }) := by
  cases email with
  | none => simp [callDecision] at h
  | some e =>
    by_cases hA : jsToLower e ∈ ALLOWED_APPROVERS
    · cases body with
      | none => simp [callDecision, hA] at h
      | some b =>
        by_cases hM : strFalsy b.id = true ∨ strFalsy b.action = true
        · simp [callDecision, hA, hM] at h
        · by_cases hAct : b.action.getD "" = "approve" ∨ b.action.getD "" = "reject"
          · simp [callDecision, hA, hM, hAct] at h
            subst h
            cases henv : env.APPROVALS with
            | none =>
              refine ⟨?_, fun _ => ?_, fun kv hkv => by simp [henv] at hkv⟩ <;>
                simp [onRequestPostApprove, hA, hM, hAct, henv]
            | some kv =>
              refine ⟨?_, fun hn => by simp [henv] at hn, fun kv' hkv => ?_⟩
              · simp [onRequestPostApprove, hA, hM, hAct, henv]
              · injection hkv with hk
                subst hk
                simp [onRequestPostApprove, hA, hM, hAct, henv]
          · simp [callDecision, hA, hM, hAct] at h
    · simp [callDecision, hA] at h

lemma applyDecision_history (kv : ApprovalsKV) (d : Decision) :
    (applyDecision kv d).history = some ((d :: kv.history.getD []).take 100) := by
  cases hp : kv.pending <;> simp [applyDecision, hp]

lemma applyDecision_pending_none (kv : ApprovalsKV) (d : Decision)
    (hp : kv.pending = none) : (applyDecision kv d).pending = none := by
  simp [applyDecision, hp]

lemma applyDecision_pending_some (kv : ApprovalsKV) (d : Decision)
    (l : List PendingItem) (hp : kv.pending = some l) :
    (applyDecision kv d).pending = some (l.filter (fun item => item.id ≠ d.id)) := by
  simp [applyDecision, hp]

lemma applyDecision_decisions (kv : ApprovalsKV) (d : Decision) :
    (applyDecision kv d).decisions ("decision:" ++ d.id) = some d := by
  cases hp : kv.pending <;> simp [applyDecision, hp]

lemma take_append_take {α : Type} (xs l : List α) (n : Nat) :
    (xs ++ l.take n).take n = (xs ++ l).take n := by
  rw [List.take_append_eq_append_take, List.take_append_eq_append_take,
    List.take_take]
  congr 1
  exact congrArg l.take (Nat.min_eq_left (Nat.sub_le n xs.length))

lemma runApprovals_cons (env : Env) (c : Call) (cs : List Call) :
    runApprovals env (c :: cs) = runApprovals (approveStep env c) cs := rfl

lemma runApprovals_history (calls : List Call) :
    ∀ (env : Env) (kv : ApprovalsKV) (h0 : List Decision),
    env.APPROVALS = some kv → kv.history = some h0 → h0.length ≤ 100 →
    approvalsHistory (runApprovals env calls)
      = some (((calls.filterMap Call.decision).reverse ++ h0).take 100) := by
  induction calls with
  | nil =>
    intro env kv h0 h1 h2 h3
    simp [runApprovals, approvalsHistory, h1, h2, List.take_of_length_le h3]
  | cons c cs ih =>
    intro env kv h0 h1 h2 h3
    rw [runApprovals_cons]
    cases hd : c.decision with
    | none =>
      have hstep : approveStep env c = env :=
        approvePost_of_invalid env c.email c.body c.now hd
      rw [hstep, ih env kv h0 h1 h2 h3]
      simp [List.filterMap_cons, hd]
    | some d =>
      have hstep : approveStep env c
          = { env with APPROVALS := some (applyDecision kv d) } :=
        (approvePost_of_valid env c.email c.body c.now d hd).2.2 kv h1
      have hh : (applyDecision kv d).history = some ((d :: h0).take 100) := by
        rw [applyDecision_history, h2]
        rfl
      have hlen : ((d :: h0).take 100).length ≤ 100 := by
        simp [List.length_take]
      rw [hstep, ih _ (applyDecision kv d) ((d :: h0).take 100) rfl hh hlen]
      rw [take_append_take]
      simp [List.filterMap_cons, hd, List.append_assoc]

lemma syncPost_spec (env : Env) (secret now : String) (snap : Snapshot)
    (hsec : env.SYNC_SECRET = some secret) :
    (onRequestPostSync env (some secret) (some snap) now).1
      = .ok now (agentsString snap)
    ∧ (onRequestPostSync env (some secret) (some snap) now).2.APPROVALS
      = (match env.APPROVALS with
         | none => none
         | some kv =>
           match kv.pending with
           | some _ => some kv
           | none => some { kv with
               pending := some (snap.pending_approvals.getD []) })
    ∧ (onRequestPostSync env (some secret) (some snap) now).2.DASHBOARD_DATA
      = (match env.DASHBOARD_DATA with
         | none => none
         | some _ => some ⟨some (serializeSnapshot snap), some now⟩) := by
  cases hdd : env.DASHBOARD_DATA with
  | none =>
    cases ha : env.APPROVALS with
    | none => simp [onRequestPostSync, hsec, hdd, ha]
    | some kv =>
      cases hp : kv.pending <;> simp [onRequestPostSync, hsec, hdd, ha, hp]
  | some dd =>
    cases ha : env.APPROVALS with
    | none => simp [onRequestPostSync, hsec, hdd, ha]
    | some kv =>
      cases hp : kv.pending <;> simp [onRequestPostSync, hsec, hdd, ha, hp]

lemma serializeSnapshot_ne_empty (s : Snapshot) : serializeSnapshot s ≠ "" := by
  intro h
  have := congrArg String.length h
  simp only [serializeSnapshot, String.length_append] at this
  simp at this
  exact absurd this.1.1.1.1 (by decide)

lemma callDecision_explicit (email i a now : String) (note : Option String)
    (hA : jsToLower email ∈ ALLOWED_APPROVERS) (hi : i ≠ "")
    (ha : a = "approve" ∨ a = "reject") :
    callDecision (some email) (some ⟨some i, some a, note⟩) now
      = some ⟨i, a, if strFalsy note then "" else note.getD "", email, now⟩ := by
  have hfi : strFalsy (some i) = false := by simp [strFalsy, hi]
  have hfa : strFalsy (some a) = false := by
    rcases ha with h | h <;> simp [strFalsy, h]
  rcases ha with h | h <;> subst h <;>
    simp [callDecision, hA, hfi,
      (by decide : strFalsy (some "approve") = false),
      (by decide : strFalsy (some "reject") = false)]

/-- C1: with a configured store and an existing pending queue, a valid
decision post removes every pending item whose id equals the decided id
(writing back the filtered sequence), returns the constructed decision
`{id, action, note or "", by, at}` and makes it the first entry of
history. -/
theorem C1_decision_filters_pending_and_heads_history
    (env : Env) (kv : ApprovalsKV) (l : List PendingItem)
    (email i a now : String) (note : Option String)
    (henv : env.APPROVALS = some kv) (hpend : kv.pending = some l)
    (hA : jsToLower email ∈ ALLOWED_APPROVERS) (hi : i ≠ "")
    (ha : a = "approve" ∨ a = "reject") :
    (onRequestPostApprove env (some email) (some ⟨some i, some a, note⟩) now).1
      = .ok ⟨i, a, if strFalsy note then "" else note.getD "", email, now⟩
    ∧ approvalsPending
        (onRequestPostApprove env (some email) (some ⟨some i, some a, note⟩) now).2
      = some (l.filter (fun item => item.id ≠ i))
    ∧ ∃ rest,
        approvalsHistory
          (onRequestPostApprove env (some email) (some ⟨some i, some a, note⟩) now).2
          = some (⟨i, a, if strFalsy note then "" else note.getD "", email, now⟩ :: rest) := by
  have hcd := callDecision_explicit email i a now note hA hi ha
  obtain ⟨hr1, -, hr2⟩ := approvePost_of_valid env _ _ now _ hcd
  have h2 := hr2 kv henv
  refine ⟨hr1, ?_, ⟨(kv.history.getD []).take 99, ?_⟩⟩
  · rw [h2]
    show (applyDecision kv _).pending = _
    exact applyDecision_pending_some kv _ l hpend
  · rw [h2]
    show (applyDecision kv _).history = _
    rw [applyDecision_history]
    exact congrArg some List.take_succ_cons

/-- Witness for C1: deciding "A" on pending `[A, B]` yields pending
`[B]` with the decision first in history. -/
theorem C1_witness :
    (envAB.APPROVALS = some kvAB ∧ kvAB.pending = some [⟨"A", "pa"⟩, ⟨"B", "pb"⟩]
      ∧ jsToLower "rinvest4@gmail.com" ∈ ALLOWED_APPROVERS
      ∧ "A" ≠ "" ∧ ("approve" = "approve" ∨ "approve" = "reject"))
    ∧ ((onRequestPostApprove envAB (some "rinvest4@gmail.com")
          (some ⟨some "A", some "approve", none⟩) "T").1
        = .ok ⟨"A", "approve", "", "rinvest4@gmail.com", "T"⟩
      ∧ approvalsPending (onRequestPostApprove envAB (some "rinvest4@gmail.com")
          (some ⟨some "A", some "approve", none⟩) "T").2
        = some [⟨"B", "pb"⟩]
      ∧ ∃ rest, approvalsHistory (onRequestPostApprove envAB (some "rinvest4@gmail.com")
          (some ⟨some "A", some "approve", none⟩) "T").2
        = some (⟨"A", "approve", "", "rinvest4@gmail.com", "T"⟩ :: rest)) := by
  have h := C1_decision_filters_pending_and_heads_history envAB kvAB
    [⟨"A", "pa"⟩, ⟨"B", "pb"⟩] "rinvest4@gmail.com" "A" "approve" "T" none
    rfl rfl (by decide) (by decide) (Or.inl rfl)
  exact ⟨⟨rfl, rfl, by decide, by decide, Or.inl rfl⟩,
    h.1, by rw [h.2.1]; decide, h.2.2⟩

/-- C2: starting from a configured store whose history has at most 100
entries, after any sequence of decision posts the stored history is the
first 100 entries of the recorded decisions (newest first) prepended to
the initial history — hence it never exceeds 100 entries and is ordered
newest-decision-first; when 101 decisions are recorded, history has
exactly 100 entries: the 100 most recent, newest first. -/
theorem C2_history_capped_newest_first
    (env : Env) (kv : ApprovalsKV) (h0 : List Decision) (calls : List Call)
    (henv : env.APPROVALS = some kv) (hh : kv.history = some h0)
    (hlen : h0.length ≤ 100) :
    approvalsHistory (runApprovals env calls)
      = some (((calls.filterMap Call.decision).reverse ++ h0).take 100)
    ∧ ((approvalsHistory (runApprovals env calls)).getD []).length ≤ 100
    ∧ ((calls.filterMap Call.decision).length = 101 →
        approvalsHistory (runApprovals env calls)
          = some ((calls.filterMap Call.decision).reverse.take 100)
        ∧ ((approvalsHistory (runApprovals env calls)).getD []).length = 100) := by
  have hmain := runApprovals_history calls env kv h0 henv hh hlen
  refine ⟨hmain, ?_, fun h101 => ?_⟩
  · rw [hmain]
    simp [List.length_take]
  · have hrev : (calls.filterMap Call.decision).reverse.length = 101 := by
      rw [List.length_reverse, h101]
    have htake : ((calls.filterMap Call.decision).reverse ++ h0).take 100
        = (calls.filterMap Call.decision).reverse.take 100 :=
      List.take_append_of_le_length (by rw [hrev]; omega)
    refine ⟨by rw [hmain, htake], ?_⟩
    rw [hmain, htake]
    simp [List.length_take, hrev]

/-- Witness for C2: 101 distinct decisions recorded against an empty
history leave exactly 100 entries, the most recent first. -/
theorem C2_witness :
    (envEmpty.APPROVALS = some kvEmpty ∧ kvEmpty.history = some []
      ∧ ([] : List Decision).length ≤ 100
      ∧ (calls101.filterMap Call.decision).length = 101)
    ∧ approvalsHistory (runApprovals envEmpty calls101)
        = some ((calls101.filterMap Call.decision).reverse.take 100)
    ∧ ((approvalsHistory (runApprovals envEmpty calls101)).getD []).length = 100 := by
  have h101 : (calls101.filterMap Call.decision).length = 101 := by decide
  have h := (C2_history_capped_newest_first envEmpty kvEmpty [] calls101
    rfl rfl (by decide)).2.2 h101
  exact ⟨⟨rfl, rfl, by decide, h101⟩, h.1, h.2⟩

/-- C3: an authorized snapshot push seeds the pending queue exactly once:
when the pending key has never been written, the queue is initialized to
the snapshot's `pending_approvals` list (empty sequence if the field is
absent); once any pending value exists, a push leaves the queue
unchanged. -/
theorem C3_seeding_at_most_once
    (env : Env) (kv : ApprovalsKV) (secret now : String) (snap : Snapshot)
    (henv : env.APPROVALS = some kv) (hsec : env.SYNC_SECRET = some secret) :
    (kv.pending = none →
      approvalsPending (onRequestPostSync env (some secret) (some snap) now).2
        = some (snap.pending_approvals.getD []))
    ∧ (∀ l, kv.pending = some l →
      approvalsPending (onRequestPostSync env (some secret) (some snap) now).2
        = some l) := by
  have h := (syncPost_spec env secret now snap hsec).2.1
  rw [henv] at h
  simp only at h
  constructor
  · intro hp
    rw [hp] at h
    simp only at h
    simp [approvalsPending, h]
  · intro l hp
    rw [hp] at h
    simp only at h
    simp [approvalsPending, h, hp]

/-- Witness for C3: seeding from snapshot `[A, B]` when no queue exists
yields exactly `[A, B]`; a second push then leaves the queue unchanged. -/
theorem C3_witness :
    (envSyncA.APPROVALS = some kvEmpty ∧ envSyncA.SYNC_SECRET = some "sec"
      ∧ kvEmpty.pending = none)
    ∧ approvalsPending (onRequestPostSync envSyncA (some "sec") (some snapAB) "T").2
        = some [⟨"A", "pa"⟩, ⟨"B", "pb"⟩]
    ∧ approvalsPending
        (onRequestPostSync (onRequestPostSync envSyncA (some "sec") (some snapAB) "T").2
          (some "sec") (some snapNoAgents) "T2").2
        = some [⟨"A", "pa"⟩, ⟨"B", "pb"⟩] := by
  have h1 := (C3_seeding_at_most_once envSyncA kvEmpty "sec" "T" snapAB rfl rfl).1 rfl
  refine ⟨⟨rfl, rfl, rfl⟩, by rw [h1]; rfl, ?_⟩
  have hkv2 : (onRequestPostSync envSyncA (some "sec") (some snapAB) "T").2.APPROVALS
      = some { kvEmpty with pending := some [⟨"A", "pa"⟩, ⟨"B", "pb"⟩] } := rfl
  have hsec2 : (onRequestPostSync envSyncA (some "sec") (some snapAB) "T").2.SYNC_SECRET
      = some "sec" := rfl
  have h2 := (C3_seeding_at_most_once
    (onRequestPostSync envSyncA (some "sec") (some snapAB) "T").2
    { kvEmpty with pending := some [⟨"A", "pa"⟩, ⟨"B", "pb"⟩] }
    "sec" "T2" snapNoAgents hkv2 hsec2).2 [⟨"A", "pa"⟩, ⟨"B", "pb"⟩] rfl
  exact h2

/-- Counterexample to C4: a request from a non-allow-listed approver
whose body is missing both `id` and `action` violates the claim's first
precondition (MissingField) and its third (NotAuthorized); the claim
says the earlier failure, MissingField, is returned, but the code
returns the authorization failure. -/
theorem C4_counterexample :
    (onRequestPostApprove envNone (some "evil@example.com")
        (some ⟨none, none, none⟩) "T").1 = .forbidden
    ∧ (ApproveResult.forbidden ≠ .missingField) := by
  exact ⟨by decide, by decide⟩

/-- C4 amended: the preconditions are checked in the order allow-list
membership (case-insensitive, else NotAuthorized/Forbidden), then id and
action presence (else MissingField), then action validity (else
InvalidAction); for every input violating an earlier check the earlier
failure is returned even when later checks are also violated. -/
theorem C4_amended_precondition_order
    (env : Env) (email now : String) (body : Option ApproveBody) :
    (jsToLower email ∉ ALLOWED_APPROVERS →
      (onRequestPostApprove env (some email) body now).1 = .forbidden)
    ∧ (∀ b, jsToLower email ∈ ALLOWED_APPROVERS → body = some b →
        (strFalsy b.id = true ∨ strFalsy b.action = true) →
        (onRequestPostApprove env (some email) body now).1 = .missingField)
    ∧ (∀ b, jsToLower email ∈ ALLOWED_APPROVERS → body = some b →
        strFalsy b.id = false → strFalsy b.action = false →
        b.action.getD "" ≠ "approve" → b.action.getD "" ≠ "reject" →
        (onRequestPostApprove env (some email) body now).1 = .invalidAction) := by
  refine ⟨fun hA => ?_, fun b hA hb hM => ?_, fun b hA hb hi ha h1 h2 => ?_⟩
  · simp [onRequestPostApprove, hA]
  · subst hb
    simp [onRequestPostApprove, hA, hM]
  · subst hb
    simp [onRequestPostApprove, hA, hi, ha, h1, h2]

/-- Witness for C4 amended: a non-allow-listed identity with a missing
id gets Forbidden; an authorized identity with a missing id gets
MissingField even when the action is also invalid; an authorized
identity with both fields present but an unknown action gets
InvalidAction. -/
theorem C4_amended_witness :
    (jsToLower "evil@example.com" ∉ ALLOWED_APPROVERS
      ∧ (onRequestPostApprove envNone (some "evil@example.com")
          (some ⟨none, some "destroy", none⟩) "T").1 = .forbidden)
    ∧ (jsToLower "rinvest4@gmail.com" ∈ ALLOWED_APPROVERS
      ∧ (onRequestPostApprove envNone (some "rinvest4@gmail.com")
          (some ⟨none, some "destroy", none⟩) "T").1 = .missingField)
    ∧ ((onRequestPostApprove envNone (some "rinvest4@gmail.com")
          (some ⟨some "A", some "destroy", none⟩) "T").1 = .invalidAction) := by
  refine ⟨⟨by decide, ?_⟩, ⟨by decide, ?_⟩, ?_⟩
  · exact (C4_amended_precondition_order envNone "evil@example.com" "T"
      (some ⟨none, some "destroy", none⟩)).1 (by decide)
  · exact (C4_amended_precondition_order envNone "rinvest4@gmail.com" "T"
      (some ⟨none, some "destroy", none⟩)).2.1 ⟨none, some "destroy", none⟩
      (by decide) rfl (Or.inl (by decide))
  · exact (C4_amended_precondition_order envNone "rinvest4@gmail.com" "T"
      (some ⟨some "A", some "destroy", none⟩)).2.2 ⟨some "A", some "destroy", none⟩
      (by decide) rfl (by decide) (by decide) (by decide) (by decide)

/-- C5: a valid decision post for an id absent from the current pending
queue succeeds, leaves the pending queue value unchanged, and still
prepends the new decision to history. -/
theorem C5_absent_id_is_noop_removal
    (env : Env) (kv : ApprovalsKV) (email i a now : String) (note : Option String)
    (henv : env.APPROVALS = some kv)
    (habs : ∀ item ∈ kv.pending.getD [], item.id ≠ i)
    (hA : jsToLower email ∈ ALLOWED_APPROVERS) (hi : i ≠ "")
    (ha : a = "approve" ∨ a = "reject") :
    (onRequestPostApprove env (some email) (some ⟨some i, some a, note⟩) now).1
      = .ok ⟨i, a, if strFalsy note then "" else note.getD "", email, now⟩
    ∧ approvalsPending
        (onRequestPostApprove env (some email) (some ⟨some i, some a, note⟩) now).2
      = kv.pending
    ∧ ∃ rest,
        approvalsHistory
          (onRequestPostApprove env (some email) (some ⟨some i, some a, note⟩) now).2
          = some (⟨i, a, if strFalsy note then "" else note.getD "", email, now⟩ :: rest) := by
  have hcd := callDecision_explicit email i a now note hA hi ha
  obtain ⟨hr1, -, hr2⟩ := approvePost_of_valid env _ _ now _ hcd
  have h2 := hr2 kv henv
  refine ⟨hr1, ?_, ⟨(kv.history.getD []).take 99, ?_⟩⟩
  · rw [h2]
    show (applyDecision kv _).pending = _
    cases hp : kv.pending with
    | none => exact applyDecision_pending_none kv _ hp
    | some l =>
      rw [applyDecision_pending_some kv _ l hp]
      rw [hp] at habs
      simp only [Option.getD_some] at habs
      congr 1
      rw [List.filter_eq_self]
      intro item hmem
      simpa using habs item hmem
  · rw [h2]
    show (applyDecision kv _).history = _
    rw [applyDecision_history]
    exact congrArg some List.take_succ_cons

/-- Witness for C5: deciding id "C", absent from pending `[A, B]`,
succeeds, leaves pending `[A, B]` and prepends the decision. -/
theorem C5_witness :
    (envAB.APPROVALS = some kvAB
      ∧ (∀ item ∈ kvAB.pending.getD [], item.id ≠ "C")
      ∧ jsToLower "rinvest4@gmail.com" ∈ ALLOWED_APPROVERS
      ∧ "C" ≠ "" ∧ ("reject" = "approve" ∨ "reject" = "reject"))
    ∧ ((onRequestPostApprove envAB (some "rinvest4@gmail.com")
          (some ⟨some "C", some "reject", some "nope"⟩) "T").1
        = .ok ⟨"C", "reject", "nope", "rinvest4@gmail.com", "T"⟩
      ∧ approvalsPending (onRequestPostApprove envAB (some "rinvest4@gmail.com")
          (some ⟨some "C", some "reject", some "nope"⟩) "T").2
        = kvAB.pending
      ∧ ∃ rest, approvalsHistory (onRequestPostApprove envAB (some "rinvest4@gmail.com")
          (some ⟨some "C", some "reject", some "nope"⟩) "T").2
        = some (⟨"C", "reject", "nope", "rinvest4@gmail.com", "T"⟩ :: rest)) := by
  have h := C5_absent_id_is_noop_removal envAB kvAB "rinvest4@gmail.com" "C"
    "reject" "T" (some "nope") rfl (by decide) (by decide) (by decide) (Or.inr rfl)
  exact ⟨⟨rfl, by decide, by decide, by decide, Or.inr rfl⟩, h⟩

/-- C6: when the APPROVALS store is unconfigured, a valid decision post
still returns the fully constructed decision but performs no persistence
at all — the environment is returned unchanged. -/
theorem C6_unconfigured_store_returns_decision_without_persistence
    (env : Env) (email i a now : String) (note : Option String)
    (henv : env.APPROVALS = none)
    (hA : jsToLower email ∈ ALLOWED_APPROVERS) (hi : i ≠ "")
    (ha : a = "approve" ∨ a = "reject") :
    onRequestPostApprove env (some email) (some ⟨some i, some a, note⟩) now
      = (.ok ⟨i, a, if strFalsy note then "" else note.getD "", email, now⟩, env) := by
  have hcd := callDecision_explicit email i a now note hA hi ha
  obtain ⟨hr1, hr2, -⟩ := approvePost_of_valid env _ _ now _ hcd
  exact Prod.ext_iff.mpr ⟨hr1, hr2 henv⟩

/-- Witness for C6: with no APPROVALS binding the call returns the
decision and the environment is untouched. -/
theorem C6_witness :
    (envNone.APPROVALS = none
      ∧ jsToLower "amandalastudios@gmail.com" ∈ ALLOWED_APPROVERS
      ∧ "A" ≠ "" ∧ ("approve" = "approve" ∨ "approve" = "reject"))
    ∧ onRequestPostApprove envNone (some "amandalastudios@gmail.com")
        (some ⟨some "A", some "approve", none⟩) "T"
      = (.ok ⟨"A", "approve", "", "amandalastudios@gmail.com", "T"⟩, envNone) := by
  exact ⟨⟨rfl, by decide, by decide, Or.inl rfl⟩,
    C6_unconfigured_store_returns_decision_without_persistence envNone
      "amandalastudios@gmail.com" "A" "approve" "T" none rfl (by decide)
      (by decide) (Or.inl rfl)⟩

/-- Counterexample to C7: a successfully parsed snapshot whose `summary`
is present but has no `active_agents` field; the claim says the response
string is "unknown" (active_agents absent), but the code branches on the
presence of `summary` alone and yields "undefined active". -/
theorem C7_counterexample :
    snapNoAgents.summary = some ⟨none⟩
    ∧ (onRequestPostSync envOnlySec (some "sec") (some snapNoAgents) "T").1
      = .ok "T" "undefined active"
    ∧ ("undefined active" ≠ "unknown") := by
  exact ⟨rfl, by decide, by decide⟩

/-- C7 amended: the response's derived string is `"<active_agents>
active"` exactly when `summary` itself is present — rendering a missing
`active_agents` as "undefined" — and "unknown" exactly when `summary` is
absent; the absence of either is never an error. -/
theorem C7_amended_agents_string
    (env : Env) (secret now : String) (snap : Snapshot)
    (hsec : env.SYNC_SECRET = some secret) :
    (onRequestPostSync env (some secret) (some snap) now).1
      = .ok now (agentsString snap)
    ∧ (snap.summary = none → agentsString snap = "unknown")
    ∧ (∀ su n, snap.summary = some su → su.active_agents = some n →
        agentsString snap = toString n ++ " active")
    ∧ (∀ su, snap.summary = some su → su.active_agents = none →
        agentsString snap = "undefined active") := by
  refine ⟨(syncPost_spec env secret now snap hsec).1, fun hs => ?_,
    fun su n hs hn => ?_, fun su hs hn => ?_⟩
  · simp [agentsString, hs]
  · simp [agentsString, hs, hn]
  · simp [agentsString, hs, hn]

/-- Witness for C7 amended: with an agent count of 3 the response is
"3 active"; with `summary` absent it is "unknown". -/
theorem C7_amended_witness :
    (envOnlySec.SYNC_SECRET = some "sec"
      ∧ snapAB.summary = some ⟨some 3⟩)
    ∧ (onRequestPostSync envOnlySec (some "sec") (some snapAB) "T").1
        = .ok "T" (agentsString snapAB)
    ∧ agentsString snapAB = "3 active" := by
  refine ⟨⟨rfl, rfl⟩, ?_, ?_⟩
  · exact (C7_amended_agents_string envOnlySec "sec" "T" snapAB rfl).1
  · exact (C7_amended_agents_string envOnlySec "sec" "T" snapAB rfl).2.2.1
      ⟨some 3⟩ 3 rfl rfl

/-- C8: reading the status while no snapshot value is stored fails with
the 404 "no data yet" response; a stored value is returned verbatim,
byte-for-byte as stored; and after a successful push against a
configured store, the stored value is the pushed snapshot's
serialization and the read returns exactly it. -/
theorem C8_get_status_verbatim_or_notfound
    (env : Env) (dd : DashboardData) (secret now : String) (snap : Snapshot)
    (hsec : env.SYNC_SECRET = some secret) :
    (dashboardStatus env = none → onRequestGetSync env = .notFound)
    ∧ (∀ s, dashboardStatus env = some s → s ≠ "" →
        onRequestGetSync env = .raw s)
    ∧ (env.DASHBOARD_DATA = some dd →
        dashboardStatus (onRequestPostSync env (some secret) (some snap) now).2
          = some (serializeSnapshot snap)
        ∧ onRequestGetSync (onRequestPostSync env (some secret) (some snap) now).2
          = .raw (serializeSnapshot snap)) := by
  refine ⟨fun hn => ?_, fun s hs hne => ?_, fun hdd => ?_⟩
  · cases hd : env.DASHBOARD_DATA with
    | none => simp [onRequestGetSync, hd]
    | some dd' =>
      simp only [dashboardStatus, hd, Option.some_bind] at hn
      simp [onRequestGetSync, hd, hn]
  · cases hd : env.DASHBOARD_DATA with
    | none => simp [dashboardStatus, hd] at hs
    | some dd' =>
      simp only [dashboardStatus, hd, Option.some_bind] at hs
      simp [onRequestGetSync, hd, hs, hne]
  · have h := (syncPost_spec env secret now snap hsec).2.2
    rw [hdd] at h
    simp only at h
    constructor
    · simp [dashboardStatus, h]
    · simp [onRequestGetSync, h, serializeSnapshot_ne_empty snap]

/-- Witness for C8: before any push the read is the 404 response; after
one push it returns the stored serialization verbatim. -/
theorem C8_witness :
    (envSyncD.SYNC_SECRET = some "sec"
      ∧ envSyncD.DASHBOARD_DATA = some ⟨none, none⟩
      ∧ dashboardStatus envSyncD = none)
    ∧ onRequestGetSync envSyncD = .notFound
    ∧ dashboardStatus (onRequestPostSync envSyncD (some "sec") (some snapAB) "T").2
        = some (serializeSnapshot snapAB)
    ∧ onRequestGetSync (onRequestPostSync envSyncD (some "sec") (some snapAB) "T").2
        = .raw (serializeSnapshot snapAB) := by
  have h := C8_get_status_verbatim_or_notfound envSyncD ⟨none, none⟩ "sec" "T" snapAB rfl
  exact ⟨⟨rfl, rfl, rfl⟩, h.1 rfl, (h.2.2 rfl).1, (h.2.2 rfl).2⟩

/-- C9: with APPROVALS configured but the pending key never written, a
valid decision post does not create the pending key (it stays absent;
no empty queue is written), while the individual decision record and the
history entry are persisted. -/
theorem C9_no_pending_key_created
    (env : Env) (kv : ApprovalsKV) (email i a now : String) (note : Option String)
    (henv : env.APPROVALS = some kv) (hpend : kv.pending = none)
    (hA : jsToLower email ∈ ALLOWED_APPROVERS) (hi : i ≠ "")
    (ha : a = "approve" ∨ a = "reject") :
    approvalsPending
        (onRequestPostApprove env (some email) (some ⟨some i, some a, note⟩) now).2
      = none
    ∧ approvalsDecision
        (onRequestPostApprove env (some email) (some ⟨some i, some a, note⟩) now).2 i
      = some ⟨i, a, if strFalsy note then "" else note.getD "", email, now⟩
    ∧ ∃ rest,
        approvalsHistory
          (onRequestPostApprove env (some email) (some ⟨some i, some a, note⟩) now).2
          = some (⟨i, a, if strFalsy note then "" else note.getD "", email, now⟩ :: rest) := by
  have hcd := callDecision_explicit email i a now note hA hi ha
  obtain ⟨-, -, hr2⟩ := approvePost_of_valid env _ _ now _ hcd
  have h2 := hr2 kv henv
  refine ⟨?_, ?_, ⟨(kv.history.getD []).take 99, ?_⟩⟩
  · rw [h2]
    show (applyDecision kv _).pending = _
    exact applyDecision_pending_none kv _ hpend
  · rw [h2]
    show (applyDecision kv _).decisions ("decision:" ++ i) = _
    exact applyDecision_decisions kv _
  · rw [h2]
    show (applyDecision kv _).history = _
    rw [applyDecision_history]
    exact congrArg some List.take_succ_cons

/-- Witness for C9: deciding against `kvEmpty` (no pending key) leaves
the key absent while the decision and history entry are persisted. -/
theorem C9_witness :
    (envEmpty.APPROVALS = some kvEmpty ∧ kvEmpty.pending = none
      ∧ jsToLower "rinvest4@gmail.com" ∈ ALLOWED_APPROVERS
      ∧ "X" ≠ "" ∧ ("approve" = "approve" ∨ "approve" = "reject"))
    ∧ (approvalsPending (onRequestPostApprove envEmpty (some "rinvest4@gmail.com")
          (some ⟨some "X", some "approve", none⟩) "T").2 = none
      ∧ approvalsDecision (onRequestPostApprove envEmpty (some "rinvest4@gmail.com")
          (some ⟨some "X", some "approve", none⟩) "T").2 "X"
        = some ⟨"X", "approve", "", "rinvest4@gmail.com", "T"⟩
      ∧ ∃ rest, approvalsHistory (onRequestPostApprove envEmpty (some "rinvest4@gmail.com")
          (some ⟨some "X", some "approve", none⟩) "T").2
        = some (⟨"X", "approve", "", "rinvest4@gmail.com", "T"⟩ :: rest)) := by
  have h := C9_no_pending_key_created envEmpty kvEmpty "rinvest4@gmail.com" "X"
    "approve" "T" none rfl rfl (by decide) (by decide) (Or.inl rfl)
  exact ⟨⟨rfl, rfl, by decide, by decide, Or.inl rfl⟩, h⟩

/-- C10: snapshot persistence and queue seeding are gated independently:
with DASHBOARD_DATA unconfigured but APPROVALS configured and no pending
key yet, an authorized push still seeds the pending queue from the
snapshot, persists no snapshot (DASHBOARD_DATA stays unconfigured), and
returns success. -/
theorem C10_seeding_independent_of_status_store
    (env : Env) (kv : ApprovalsKV) (secret now : String) (snap : Snapshot)
    (hdd : env.DASHBOARD_DATA = none) (henv : env.APPROVALS = some kv)
    (hpend : kv.pending = none) (hsec : env.SYNC_SECRET = some secret) :
    (onRequestPostSync env (some secret) (some snap) now).1
      = .ok now (agentsString snap)
    ∧ approvalsPending (onRequestPostSync env (some secret) (some snap) now).2
      = some (snap.pending_approvals.getD [])
    ∧ (onRequestPostSync env (some secret) (some snap) now).2.DASHBOARD_DATA
      = none := by
  obtain ⟨h1, h2, h3⟩ := syncPost_spec env secret now snap hsec
  rw [henv] at h2
  simp only at h2
  rw [hpend] at h2
  simp only at h2
  rw [hdd] at h3
  simp only at h3
  exact ⟨h1, by simp [approvalsPending, h2], h3⟩

/-- Witness for C10: pushing snapshot `[A, B]` with only the approvals
store configured seeds the queue and stores no snapshot. -/
theorem C10_witness :
    (envSyncA.DASHBOARD_DATA = none ∧ envSyncA.APPROVALS = some kvEmpty
      ∧ kvEmpty.pending = none ∧ envSyncA.SYNC_SECRET = some "sec")
    ∧ ((onRequestPostSync envSyncA (some "sec") (some snapAB) "T").1
        = .ok "T" (agentsString snapAB)
      ∧ approvalsPending (onRequestPostSync envSyncA (some "sec") (some snapAB) "T").2
        = some (snapAB.pending_approvals.getD [])
      ∧ (onRequestPostSync envSyncA (some "sec") (some snapAB) "T").2.DASHBOARD_DATA
        = none) := by
  exact ⟨⟨rfl, rfl, rfl, rfl⟩,
    C10_seeding_independent_of_status_store envSyncA kvEmpty "sec" "T" snapAB
      rfl rfl rfl rfl⟩
